import Mathlib

/-!
A verification development for the Z.M.ai academic-policy assistant
(`streamlit_app.py`).  Python strings are embedded as `List Char`; the
retrieval scorer `retrieve_context` and the LLM front gate
`get_llm_response` are translated function by function from the source.
-/

namespace ZMai

/-- Characters of a Python string, in order. -/
abbrev Str := List Char

/-- Python `str.strip()` whitespace set (ASCII): space, tab, newline,
carriage return, vertical tab, form feed. -/
def pyIsSpace (c : Char) : Bool :=
  c = ' ' || c = '\t' || c = '\n' || c = '\r' || c = '\x0b' || c = '\x0c'

/-- A word character for the regex `\b\w+\b` (ASCII model): letters,
digits, underscore. -/
def isWordChar (c : Char) : Bool :=
  c.isAlphanum || c = '_'

/-- `str.lower()`: lowercase each character. -/
def lowerStr (s : Str) : Str :=
  s.map Char.toLower

/-- `str.strip()`: drop whitespace from both ends. -/
def pyStrip (s : Str) : Str :=
  ((s.dropWhile pyIsSpace).reverse.dropWhile pyIsSpace).reverse

/-- Helper for `re.findall(r'\b\w+\b', s)`: accumulate the current run of
word characters (reversed) and cut a token at each non-word character. -/
def wordTokensAux : List Char → Str → List Str
  | acc, [] => if acc.isEmpty then [] else [acc.reverse]
  | acc, c :: rest =>
    if isWordChar c then wordTokensAux (c :: acc) rest
    else if acc.isEmpty then wordTokensAux [] rest
    else acc.reverse :: wordTokensAux [] rest

/-- `re.findall(r'\b\w+\b', s)`: the maximal runs of word characters. -/
def wordTokens (s : Str) : List Str :=
  wordTokensAux [] s

/-- The stop words discarded from the query-word set
(`query_words.discard(...)` in `retrieve_context`). -/
def stopWords : List Str :=
  ["what".toList, "how".toList, "is".toList, "the".toList,
   "a".toList, "an".toList, "are".toList, "you".toList]

/-- `set(re.findall(r'\b\w+\b', query.lower()))` minus the stop words:
the distinct lowercase word tokens of the query with stop words removed. -/
def queryWords (query : Str) : List Str :=
  ((wordTokens (lowerStr query)).dedup).filter (fun w => decide (w ∉ stopWords))

/-- Does `needle` match at the head of `hay`? -/
def leadMatch : Str → Str → Bool
  | [], _ => true
  | _ :: _, [] => false
  | a :: as, b :: bs => a = b && leadMatch as bs

/-- Python `needle in hay` substring containment. -/
def containsSub (needle : Str) : Str → Bool
  | [] => needle.isEmpty
  | c :: rest => leadMatch needle (c :: rest) || containsSub needle rest

/-- Helper for `knowledge_base.split("\n\n")`: cut at each leftmost,
non-overlapping occurrence of two consecutive newlines. -/
def splitParasAux : List Char → Str → List Str
  | acc, c1 :: c2 :: rest =>
    if c1 = '\n' && c2 = '\n' then acc.reverse :: splitParasAux [] rest
    else splitParasAux (c1 :: acc) (c2 :: rest)
  | acc, [c] => [(c :: acc).reverse]
  | acc, [] => [acc.reverse]

/-- `knowledge_base.split("\n\n")`. -/
def splitParas (s : Str) : List Str :=
  splitParasAux [] s

/-- The hardcoded term-expansion bonuses of `retrieve_context`: +2 for each
of the three related-term rules whose condition holds, each at most once. -/
def expansionBonus (qws : List Str) (chunkLower : Str) : Nat :=
  (if qws.contains "attendance".toList &&
      (containsSub "present".toList chunkLower ||
       containsSub "absent".toList chunkLower) then 2 else 0) +
  (if qws.contains "grade".toList &&
      (containsSub "gpa".toList chunkLower ||
       containsSub "cgpa".toList chunkLower ||
       containsSub "mark".toList chunkLower) then 2 else 0) +
  (if qws.contains "exam".toList &&
      (containsSub "test".toList chunkLower ||
       containsSub "quiz".toList chunkLower ||
       containsSub "assessment".toList chunkLower) then 2 else 0)

/-- The chunk score of `retrieve_context`: a +3 pass and a +1 pass over the
query words (each adding once per word that is a substring of the lowercased
chunk), plus the term-expansion bonuses. -/
def chunkScore (qws : List Str) (chunk : Str) : Nat :=
  let chunkLower := lowerStr chunk
  (qws.foldl (fun s w => if containsSub w chunkLower then s + 3 else s) 0) +
  (qws.foldl (fun s w => if containsSub w chunkLower then s + 1 else s) 0) +
  expansionBonus qws chunkLower

/-- The scored-chunk list of `retrieve_context`, in the order chunks are
encountered: chunks whose stripped length is below 20 are skipped, the rest
are scored, and only chunks with a positive score are kept. -/
def scoredChunks (qws : List Str) (kb : Str) : List (Nat × Str) :=
  ((splitParas kb).filter (fun c => !decide ((pyStrip c).length < 20))).filterMap
    (fun c => let s := chunkScore qws c
              if 0 < s then some (s, c) else none)

/-- Insert a pair into a list sorted by score descending, before the first
element with a strictly smaller score (so an element inserted later into the
sorted tail never jumps over an equal score: the sort below is stable). -/
def insertDesc (p : Nat × Str) : List (Nat × Str) → List (Nat × Str)
  | [] => [p]
  | q :: qs => if q.1 ≤ p.1 then p :: q :: qs else q :: insertDesc p qs

/-- `scored_chunks.sort(reverse=True, key=lambda x: x[0])`: a stable sort by
score descending. -/
def sortDesc (l : List (Nat × Str)) : List (Nat × Str) :=
  l.foldr insertDesc []

/-- The fixed separator joining the returned chunks. -/
def chunkSep : Str := "\n\n---\n\n".toList

/-- `"\n\n---\n\n".join(chunks)`. -/
def joinSep : List Str → Str
  | [] => []
  | [c] => c
  | c :: c2 :: rest => c ++ chunkSep ++ joinSep (c2 :: rest)

/-- `retrieve_context(query, knowledge_base, max_chunks)`: the retrieval
scorer of `streamlit_app.py`. -/
def retrieve_context (query : Str) (knowledge_base : Str) (max_chunks : Nat) : Str :=
  if knowledge_base.isEmpty then []
  else
    let qws := queryWords query
    if qws.isEmpty then []
    else
      let sorted := sortDesc (scoredChunks qws knowledge_base)
      if sorted.isEmpty then []
      else joinSep ((sorted.take max_chunks).map Prod.snd)

/-- The cache-hit branch of `load_or_create_knowledge_base`: a present cache
file's contents are returned verbatim. -/
def loadFromCache (cacheContents : Str) : Str :=
  cacheContents

/-- A chat message: a role and its content. -/
structure Message where
  role : Str
  content : Str

/-- Outcome of the external completion endpoint: the first choice's text,
or the message of a raised exception. -/
inductive LLMOutcome where
  | ok : Str → LLMOutcome
  | exn : Str → LLMOutcome

/-- What `get_llm_response` yields: the returned text, and whether the
external endpoint was invoked on the way. -/
structure LLMResult where
  response : Str
  endpointCalled : Bool

/-- Python truthiness of the resolved credential: `None` and the empty
string are falsy. -/
def truthy : Option Str → Bool
  | none => false
  | some s => !s.isEmpty

/-- The fixed warning returned when the API credential is absent (the
warning-sign prefix is kept byte for byte as the source file stores it). -/
def apiKeyMissingWarning : Str :=
  "‚ö†Ô∏è API Key missing. Please add GROQ_API_KEY to secrets.".toList

/-- The system prompt of `get_llm_response`: the fixed template with the
current date and the retrieved context spliced in. -/
def systemPrompt (today context : Str) : Str :=
  "You are Z.M.ai, a helpful academic policy assistant for university students.\n\nCurrent Date: ".toList ++
  today ++
  "\n\nREFERENCE MATERIAL:\n".toList ++
  (if context.isEmpty then [] else context) ++
  "\n\nINSTRUCTIONS:\n1. Use the reference material above to provide accurate answers\n2. Be professional, clear, and concise\n3. Use bullet points or numbered lists for clarity\n4. Keep answers relevant to academic policies\n5. Answer helpfully based on what you know\n\nRespond in a friendly, helpful manner.".toList

/-- The message sequence sent to the endpoint: the system prompt, the last
6 history entries (oldest of that window first), then the query as the
final user turn. -/
def buildMessages (today query context : Str) (history : List Message) : List Message :=
  ⟨"system".toList, systemPrompt today context⟩ ::
    (history.drop (history.length - 6) ++ [⟨"user".toList, query⟩])

/-- `get_llm_response(query, context, history)` with the credential, the
current date and the external endpoint made explicit parameters. -/
def get_llm_response (api_key : Option Str) (today query context : Str)
    (history : List Message) (endpoint : List Message → LLMOutcome) : LLMResult :=
  if !truthy api_key then ⟨apiKeyMissingWarning, false⟩
  else
    match endpoint (buildMessages today query context history) with
    | .ok text => ⟨text, true⟩
    | .exn e =>
      ⟨"‚ö†Ô∏è Error generating response: ".toList ++ e, true⟩

/-- The per-chunk score as the spec words it: 4 points for each distinct
query term occurring as a substring of the lowercased chunk (a 3-point pass
plus a 1-point pass), plus the at-most-once term-expansion bonuses. -/
def specChunkScore (qws : List Str) (chunk : Str) : Nat :=
  4 * ((qws.filter (fun w => containsSub w (lowerStr chunk))).length) +
    expansionBonus qws (lowerStr chunk)

theorem foldl_add_if (p : Str → Bool) (k : Nat) (l : List Str) (a : Nat) :
    l.foldl (fun s w => if p w then s + k else s) a = a + k * (l.filter p).length := by
  induction l generalizing a with
  | nil => simp
  | cons w ws ih =>
    rw [List.foldl_cons, List.filter_cons]
    cases h : p w
    · rw [if_neg (by simp [h]), if_neg (by simp [h]), ih]
    · rw [if_pos (by simp [h]), if_pos (by simp [h]), ih, List.length_cons]
      ring

theorem chunkScore_eq_spec (qws : List Str) (chunk : Str) :
    chunkScore qws chunk = specChunkScore qws chunk := by
  simp only [chunkScore, specChunkScore]
  rw [foldl_add_if, foldl_add_if]
  ring

theorem mem_scoredChunks_iff (qws : List Str) (kb : Str) (s : Nat) (c : Str) :
    (s, c) ∈ scoredChunks qws kb ↔
      (c ∈ splitParas kb ∧ 20 ≤ (pyStrip c).length ∧
       s = chunkScore qws c ∧ 0 < s) := by
  simp only [scoredChunks, List.mem_filterMap, List.mem_filter,
    Bool.not_eq_eq_eq_not, Bool.not_true, decide_eq_false_iff_not, Nat.not_lt]
  constructor
  · rintro ⟨a, ⟨ha, hlen⟩, hfa⟩
    by_cases hs : 0 < chunkScore qws a
    · rw [if_pos hs, Option.some.injEq, Prod.mk.injEq] at hfa
      obtain ⟨hfa1, hfa2⟩ := hfa
      subst hfa2
      exact ⟨ha, hlen, hfa1.symm, hfa1 ▸ hs⟩
    · rw [if_neg hs] at hfa
      exact absurd hfa (Option.noConfusion)
  · rintro ⟨hc, hlen, hs, hpos⟩
    refine ⟨c, ⟨hc, hlen⟩, ?_⟩
    rw [if_pos (hs ▸ hpos), hs]

theorem mem_insertDesc (p x : Nat × Str) (l : List (Nat × Str)) :
    x ∈ insertDesc p l ↔ x = p ∨ x ∈ l := by
  induction l with
  | nil => simp [insertDesc]
  | cons q qs ih =>
    unfold insertDesc
    by_cases h : q.1 ≤ p.1
    · rw [if_pos h]
      simp [List.mem_cons]
    · rw [if_neg h]
      simp only [List.mem_cons, ih]
      tauto

theorem sorted_insertDesc (p : Nat × Str) (l : List (Nat × Str))
    (hl : l.Pairwise (fun a b => b.1 ≤ a.1)) :
    (insertDesc p l).Pairwise (fun a b => b.1 ≤ a.1) := by
  induction l with
  | nil => simp [insertDesc]
  | cons q qs ih =>
    rw [List.pairwise_cons] at hl
    obtain ⟨hq, hqs⟩ := hl
    unfold insertDesc
    by_cases h : q.1 ≤ p.1
    · rw [if_pos h]
      refine List.Pairwise.cons ?_ (List.Pairwise.cons hq hqs)
      intro x hx
      rcases List.mem_cons.mp hx with rfl | hx
      · exact h
      · exact Nat.le_trans (hq x hx) h
    · rw [if_neg h]
      refine List.Pairwise.cons ?_ (ih hqs)
      intro x hx
      rcases (mem_insertDesc p x qs).mp hx with rfl | hx
      · exact Nat.le_of_lt (Nat.lt_of_not_le h)
      · exact hq x hx

theorem sorted_sortDesc (l : List (Nat × Str)) :
    (sortDesc l).Pairwise (fun a b => b.1 ≤ a.1) := by
  induction l with
  | nil => simp [sortDesc]
  | cons p ps ih => exact sorted_insertDesc p _ ih

theorem mem_sortDesc (x : Nat × Str) (l : List (Nat × Str)) :
    x ∈ sortDesc l ↔ x ∈ l := by
  induction l with
  | nil => rfl
  | cons p ps ih =>
    show x ∈ insertDesc p (sortDesc ps) ↔ _
    rw [mem_insertDesc, ih, List.mem_cons]

theorem filter_insertDesc (s : Nat) (p : Nat × Str) (l : List (Nat × Str)) :
    (insertDesc p l).filter (fun x => decide (x.1 = s)) =
      if p.1 = s then p :: l.filter (fun x => decide (x.1 = s))
      else l.filter (fun x => decide (x.1 = s)) := by
  induction l with
  | nil =>
    by_cases hp : p.1 = s
    · simp [insertDesc, hp]
    · simp [insertDesc, hp]
  | cons q qs ih =>
    unfold insertDesc
    by_cases h : q.1 ≤ p.1
    · rw [if_pos h]
      by_cases hp : p.1 = s <;> simp [List.filter_cons, hp]
    · rw [if_neg h, List.filter_cons, ih]
      by_cases hp : p.1 = s
      · have hq : ¬ q.1 = s := by
          have := Nat.lt_of_not_le h
          omega
        simp [List.filter_cons, hp, hq]
      · by_cases hq : q.1 = s <;> simp [List.filter_cons, hp, hq]

theorem filter_sortDesc (s : Nat) (l : List (Nat × Str)) :
    (sortDesc l).filter (fun x => decide (x.1 = s)) =
      l.filter (fun x => decide (x.1 = s)) := by
  induction l with
  | nil => rfl
  | cons p ps ih =>
    show (insertDesc p (sortDesc ps)).filter _ = _
    rw [filter_insertDesc, List.filter_cons]
    by_cases hp : p.1 = s <;> simp [hp, ih]

theorem scoredChunks_nil_qws (kb : Str) : scoredChunks [] kb = [] := by
  simp only [scoredChunks, List.filterMap_eq_nil_iff]
  intro a _
  simp [chunkScore, expansionBonus]

theorem retrieve_context_eq (q kb : Str) (k : Nat) :
    retrieve_context q kb k =
      joinSep (((sortDesc (scoredChunks (queryWords q) kb)).take k).map Prod.snd) := by
  simp only [retrieve_context]
  by_cases hkb : kb.isEmpty
  · rw [if_pos hkb, List.isEmpty_iff.mp hkb]
    have h0 : scoredChunks (queryWords q) [] = [] := rfl
    rw [h0]
    simp [sortDesc, joinSep]
  · rw [if_neg hkb]
    by_cases hq : (queryWords q).isEmpty
    · rw [if_pos hq, List.isEmpty_iff.mp hq, scoredChunks_nil_qws]
      simp [sortDesc, joinSep]
    · rw [if_neg hq]
      by_cases hs : (sortDesc (scoredChunks (queryWords q) kb)).isEmpty
      · rw [if_pos hs, List.isEmpty_iff.mp hs]
        simp [joinSep]
      · rw [if_neg hs]

/-- C1 (counterexample): with the cached knowledge base `"X\n\nY policy Z"`
and the query `"policy"`, the returned context is not `"Y policy Z"`. -/
theorem cache_scenario_policy_not_returned :
    retrieve_context "policy".toList (loadFromCache "X\n\nY policy Z".toList) 5 ≠
      "Y policy Z".toList := by decide

/-- C1 (amended): with the cached knowledge base `"X\n\nY policy Z"` and
the query `"policy"`, retrieve returns the empty string: the only chunk
containing `"policy"` is 10 characters after stripping, below the 20
character minimum, so no chunk survives the length filter. -/
theorem cache_scenario_policy_empty :
    retrieve_context "policy".toList (loadFromCache "X\n\nY policy Z".toList) 5 = [] ∧
    (pyStrip "Y policy Z".toList).length < 20 := by
  exact ⟨by decide, by decide⟩

/-- C7: on the knowledge base
`"Attendance policy: students must be present.\n\nGrading uses GPA and CGPA."`
with the query `"What is the attendance policy?"`, the text splits into the
two expected chunks, the first chunk strictly outscores the second, and the
returned context is exactly the first chunk. -/
theorem attendance_example_first_chunk_wins :
    splitParas "Attendance policy: students must be present.\n\nGrading uses GPA and CGPA.".toList =
      ["Attendance policy: students must be present.".toList,
       "Grading uses GPA and CGPA.".toList] ∧
    chunkScore (queryWords "What is the attendance policy?".toList)
        "Grading uses GPA and CGPA.".toList <
      chunkScore (queryWords "What is the attendance policy?".toList)
        "Attendance policy: students must be present.".toList ∧
    retrieve_context "What is the attendance policy?".toList
        "Attendance policy: students must be present.\n\nGrading uses GPA and CGPA.".toList 5 =
      "Attendance policy: students must be present.".toList := by
  exact ⟨by decide, by decide, by decide⟩

/-- C10: a chunk containing none of the query terms can still be returned:
for the query `"attendance"` and the knowledge base
`"Students must be present in class today."`, no query term is a substring
of the lowercased chunk, yet the term-expansion bonus alone scores 2 and
the chunk is the returned context. -/
theorem expansion_bonus_alone_returns_chunk :
    retrieve_context "attendance".toList
        "Students must be present in class today.".toList 5 =
      "Students must be present in class today.".toList ∧
    (queryWords "attendance".toList).all
      (fun w => !containsSub w (lowerStr "Students must be present in class today.".toList)) = true ∧
    chunkScore (queryWords "attendance".toList)
      "Students must be present in class today.".toList = 2 := by
  exact ⟨by decide, by decide, by decide⟩

/-- C2: the query-term list is duplicate-free, and a pair `(s, c)` is in
the scored-chunk list exactly when the chunk `c` survives the 20-character
length filter, `s` is 4 per distinct matching query term (the +3 pass and
the +1 pass) plus the at-most-once expansion bonuses, and `s` is positive
(chunks with a final score of 0 are discarded). -/
theorem scored_chunk_score_spec (q kb : Str) (s : Nat) (c : Str) :
    (queryWords q).Nodup ∧
    chunkScore (queryWords q) c = specChunkScore (queryWords q) c ∧
    ((s, c) ∈ scoredChunks (queryWords q) kb ↔
      (c ∈ splitParas kb ∧ 20 ≤ (pyStrip c).length ∧
       s = specChunkScore (queryWords q) c ∧ 0 < s)) := by
  refine ⟨List.Nodup.filter _ (List.nodup_dedup _), chunkScore_eq_spec _ _, ?_⟩
  rw [mem_scoredChunks_iff, chunkScore_eq_spec]

/-- C3: the sorted scored-chunk list is in descending score order; ties
keep the order chunks were encountered in (the sublist at each score value
is unchanged by the sort); the returned context is the top-`k` surviving
chunks joined with the fixed separator; at most `k` chunks are returned;
and when no chunk scored above 0 the result is the empty string. -/
theorem retrieve_top_k_sorted_stable (q kb : Str) (k : Nat) :
    retrieve_context q kb k =
        joinSep (((sortDesc (scoredChunks (queryWords q) kb)).take k).map Prod.snd) ∧
    (sortDesc (scoredChunks (queryWords q) kb)).Pairwise (fun a b => b.1 ≤ a.1) ∧
    (∀ s : Nat,
      (sortDesc (scoredChunks (queryWords q) kb)).filter (fun x => decide (x.1 = s)) =
        (scoredChunks (queryWords q) kb).filter (fun x => decide (x.1 = s))) ∧
    (((sortDesc (scoredChunks (queryWords q) kb)).take k).map Prod.snd).length ≤ k ∧
    (scoredChunks (queryWords q) kb = [] → retrieve_context q kb k = []) := by
  refine ⟨retrieve_context_eq q kb k, sorted_sortDesc _, fun s => filter_sortDesc s _, ?_, ?_⟩
  · rw [List.length_map, List.length_take]
    omega
  · intro h
    rw [retrieve_context_eq q kb k, h]
    simp [sortDesc, joinSep]

/-- C4: a query whose set of lowercase word tokens, after stop-word
removal, is empty returns the empty string for every knowledge base and
every `max_chunks`. -/
theorem stopword_query_returns_empty (q kb : Str) (k : Nat)
    (h : queryWords q = []) : retrieve_context q kb k = [] := by
  simp [retrieve_context, h]

/-- C4 witness: the all-stop-word query `"What is the"`. -/
theorem stopword_query_returns_empty_witness :
    retrieve_context "What is the".toList
      "Attendance policy: students must be present.".toList 3 = [] :=
  stopword_query_returns_empty _ _ _ (by decide)

/-- C5: the empty knowledge base short-circuits: retrieve returns the
empty string for every query and every `max_chunks`, with no error
surfaced. -/
theorem empty_kb_returns_empty (q : Str) (k : Nat) :
    retrieve_context q [] k = [] := by
  simp [retrieve_context]

/-- C6: a chunk shorter than 20 characters after stripping is never among
the chunks whose join retrieve returns, whatever terms it contains. -/
theorem short_chunks_never_returned (q kb : Str) (k : Nat) (c : Str)
    (h : (pyStrip c).length < 20) :
    c ∉ ((sortDesc (scoredChunks (queryWords q) kb)).take k).map Prod.snd ∧
    retrieve_context q kb k =
      joinSep (((sortDesc (scoredChunks (queryWords q) kb)).take k).map Prod.snd) := by
  refine ⟨?_, retrieve_context_eq q kb k⟩
  intro hc
  rw [List.mem_map] at hc
  obtain ⟨⟨s0, c0⟩, hmem, hsnd⟩ := hc
  have hc0 : c0 = c := hsnd
  subst hc0
  have hx : (s0, c0) ∈ scoredChunks (queryWords q) kb :=
    (mem_sortDesc (s0, c0) _).mp (List.mem_of_mem_take hmem)
  obtain ⟨-, hlen, -, -⟩ := (mem_scoredChunks_iff (queryWords q) kb s0 c0).mp hx
  omega

/-- C6 witness: the 13-character chunk `"Short policy."` matches the query
term `"policy"` exactly yet is not among the returned chunks. -/
theorem short_chunks_never_returned_witness :
    "Short policy.".toList ∉
      ((sortDesc (scoredChunks (queryWords "policy".toList)
        "Short policy.\n\nThe policy paragraph explains attendance rules.".toList)).take
          5).map Prod.snd ∧
    retrieve_context "policy".toList
        "Short policy.\n\nThe policy paragraph explains attendance rules.".toList 5 =
      joinSep (((sortDesc (scoredChunks (queryWords "policy".toList)
        "Short policy.\n\nThe policy paragraph explains attendance rules.".toList)).take
          5).map Prod.snd) :=
  short_chunks_never_returned "policy".toList
    "Short policy.\n\nThe policy paragraph explains attendance rules.".toList 5
    "Short policy.".toList (by decide)

theorem char_toLower_eq (c : Char) :
    c.toLower = if c.toNat ≥ 65 ∧ c.toNat ≤ 90 then Char.ofNat (c.toNat + 32) else c := rfl

theorem char_ofNat_toNat_valid {n : Nat} (h : n.isValidChar) :
    (Char.ofNat n).toNat = n := by
  unfold Char.ofNat
  rw [dif_pos h]
  rfl

theorem char_toLower_idem (c : Char) : c.toLower.toLower = c.toLower := by
  rw [char_toLower_eq c]
  by_cases h : c.toNat ≥ 65 ∧ c.toNat ≤ 90
  · rw [if_pos h]
    have hv : (c.toNat + 32).isValidChar := Or.inl (by omega)
    have ht : (Char.ofNat (c.toNat + 32)).toNat = c.toNat + 32 := char_ofNat_toNat_valid hv
    rw [char_toLower_eq, ht, if_neg (by omega)]
  · rw [if_neg h, char_toLower_eq c, if_neg h]

theorem lowerStr_idem (s : Str) : lowerStr (lowerStr s) = lowerStr s := by
  simp only [lowerStr, List.map_map]
  exact List.map_congr_left (fun c _ => char_toLower_idem c)

theorem queryWords_lowerStr (q : Str) : queryWords (lowerStr q) = queryWords q := by
  unfold queryWords wordTokens
  rw [lowerStr_idem]

/-- C9: retrieval is invariant under the letter case of the query, since
query tokens are lowercased before deduplication and matching. -/
theorem retrieve_case_invariant (q kb : Str) (k : Nat) :
    retrieve_context q kb k = retrieve_context (lowerStr q) kb k := by
  simp only [retrieve_context]
  rw [queryWords_lowerStr]

/-- C8: when the API credential is absent (falsy), `get_llm_response`
returns the fixed warning string and the external endpoint is not invoked,
whatever the query, context, history and endpoint are. -/
theorem get_llm_response_no_key (api_key : Option Str) (today query context : Str)
    (history : List Message) (endpoint : List Message → LLMOutcome)
    (h : truthy api_key = false) :
    get_llm_response api_key today query context history endpoint =
      ⟨apiKeyMissingWarning, false⟩ := by
  simp [get_llm_response, h]

/-- C8 witness at a concrete input: credential `none` and an endpoint that
would answer `"hello"` if it were ever called. -/
theorem get_llm_response_no_key_witness :
    get_llm_response none "12 October 2025".toList "q".toList "ctx".toList []
        (fun _ => LLMOutcome.ok "hello".toList) =
      ⟨apiKeyMissingWarning, false⟩ :=
  get_llm_response_no_key none _ _ _ _ _ rfl

end ZMai
